import Mathlib

/-!
Shallow embedding of the adapter layer of webdav-handler-rs
(src/actix.rs, src/warp.rs, src/time.rs, examples/sample-litmus-server.rs).

Conventions of the embedding:
* byte buffers are modelled as lists of naturals (`ByteSeq`);
* URI paths are modelled as lists of characters, so that Rust string
  slicing `&path[..n]` becomes `List.take`;
* the foreign `http::Version`, `actix_web::http::Version` and
  `warp::http::Version` enumerations are modelled as inductive types;
  the first two carry an extra `other` constructor mirroring the
  wildcard arm the source code keeps for them (the crates declare the
  type non-exhaustively, and the source matches it with a `_` arm);
* a Rust panic (such as calling unwrap on a None) is modelled by the
  error side of `Except`;
* polling a stream is modelled by the `Poll` inductive, exactly the
  shape of `std::task::Poll` specialised to the option/result payloads
  the source handles.
-/

namespace WebdavHandler

/-- Byte buffers (the payload of `bytes::Bytes`), modelled as lists of naturals. -/
abbrev ByteSeq := List Nat

/-- Subset of `std::io::ErrorKind` values that appear in the adapter sources:
BrokenPipe (actix body bridge), Unsupported (actix version check), Other
(catch-all payload errors), InvalidInput (UtcOffset::new). -/
inductive IoErrorKind where
  | brokenPipe
  | unsupported
  | otherKind
  | invalidInput
  deriving DecidableEq, Repr

/-- Model of `std::io::Error`: an error kind plus a message payload.
io::Error::from(kind) produces an error with the kind and no custom message. -/
structure IoErrorM where
  kind : IoErrorKind
  msg : String
  deriving DecidableEq, Repr

/-- io::Error::from(kind): an error of the given kind with no custom message. -/
def ioErrorFromKind (k : IoErrorKind) : IoErrorM := ⟨k, ""⟩

/-- Model of `std::task::Poll`. -/
inductive Poll (α : Type) where
  | ready (val : α)
  | pending
  deriving DecidableEq, Repr

/-- Model of `http_body::Frame` as produced by the actix body bridge:
the bridge only ever emits data frames. -/
inductive Frame where
  | data (chunk : ByteSeq)
  deriving DecidableEq, Repr

/-- Model of `actix_web::error::PayloadError` as matched by
`DavBody::poll_frame` (src/actix.rs lines 98-103): the `Incomplete` and `Io`
variants are matched by name; every remaining variant (EncodingCorrupted,
Overflow, UnknownLength, Http2Payload) falls to the wildcard arm, which only
uses its Debug rendering, carried here as a string. -/
inductive PayloadError where
  | incomplete (cause : Option IoErrorM)
  | io (err : IoErrorM)
  | otherVariant (dbg : String)
  deriving DecidableEq, Repr

/-- Model of `crate::body::BodyType` as matched exhaustively by
`DavResponse::respond_to` (src/actix.rs lines 138-143): a `Bytes` variant with
an optional buffer, an `Empty` variant, and an `AsyncStream` variant. The
stream producer is opaque to the adapters (they never pull from it), so it is
carried as an abstract handle. -/
inductive BodyType where
  | bytes (buf : Option ByteSeq)
  | empty
  | asyncStream (handle : Nat)
  deriving DecidableEq, Repr

/-- Model of the canonical `http::Version`. The http crate declares the type
non-exhaustively and the source matches it with a wildcard arm
(src/warp.rs line 63), so the model keeps an `other` constructor for that arm. -/
inductive HttpVersion where
  | http09
  | http10
  | http11
  | http2
  | http3
  | other
  deriving DecidableEq, Repr

/-- Model of `actix_web::http::Version`; `other` mirrors the wildcard arm of
the match in `DavRequest::from_request` (src/actix.rs line 53). -/
inductive ActixVersion where
  | http09
  | http10
  | http11
  | http2
  | http3
  | other
  deriving DecidableEq, Repr

/-- Model of `warp::http::Version`, restricted to the five values the source
ever constructs (src/warp.rs lines 58-62). -/
inductive WarpVersion where
  | http09
  | http10
  | http11
  | http2
  | http3
  deriving DecidableEq, Repr

/-- Native-to-canonical version mapping of `DavRequest::from_request`
(src/actix.rs lines 47-54); the wildcard arm returns an error, modelled
as `none` here. -/
def actixVersionToHttp : ActixVersion → Option HttpVersion
  | .http09 => some .http09
  | .http10 => some .http10
  | .http11 => some .http11
  | .http2 => some .http2
  | .http3 => some .http3
  | .other => none

/-- Canonical-to-native version mapping of the warp response half
(src/warp.rs lines 57-64). -/
def httpVersionToWarp : HttpVersion → Option WarpVersion
  | .http09 => some .http09
  | .http10 => some .http10
  | .http11 => some .http11
  | .http2 => some .http2
  | .http3 => some .http3
  | .other => none

/-- The evident identification of the five warp wire versions with the five
actix wire versions (the two crates enumerate the same HTTP versions); used to
state that the request-side and response-side tables are inverse. -/
def warpVersionAsActix : WarpVersion → ActixVersion
  | .http09 => .http09
  | .http10 => .http10
  | .http11 => .http11
  | .http2 => .http2
  | .http3 => .http3

/-- Round trip of one version through the actix request-adapter mapping and
the warp response-adapter mapping, reading the result back as an actix-side
version through the evident identification. -/
def versionRoundTrip (av : ActixVersion) : Option ActixVersion :=
  (actixVersionToHttp av).bind (fun hv => (httpVersionToWarp hv).map warpVersionAsActix)

/-! ### actix body bridge (src/actix.rs, DavBody::poll_frame) -/

/-- Error translation of `DavBody::poll_frame` (src/actix.rs lines 98-103):
Incomplete(Some(err)) yields err, Incomplete(None) yields a BrokenPipe
io::Error, Io(err) yields err, every other variant yields
io::Error::new(Other, its Debug rendering). -/
def mapPayloadError : PayloadError → IoErrorM
  | .incomplete (some e) => e
  | .incomplete none => ioErrorFromKind .brokenPipe
  | .io e => e
  | .otherVariant dbg => ⟨.otherKind, dbg⟩

/-- Model of `DavBody::poll_frame` (src/actix.rs lines 91-107): one poll step
taking the result of polling the underlying actix payload to the result the
bridge hands to the canonical body consumer. -/
def pollFrame (inner : Poll (Option (Except PayloadError ByteSeq))) :
    Poll (Option (Except IoErrorM Frame)) :=
  match inner with
  | .ready (some (.ok d)) => .ready (some (.ok (.data d)))
  | .ready (some (.error e)) => .ready (some (.error (mapPayloadError e)))
  | .ready none => .ready none
  | .pending => .pending

/-! ### Prefix computation (src/actix.rs lines 62-67, src/warp.rs lines 47-49) -/

/-- The consumed path segment: the request path with the router tail removed,
Rust slice `&path[..path.len() - tail.len()]` over a path modelled as a list
of characters. -/
def rawPrefixOf (path tail : List Char) : List Char :=
  path.take (path.length - tail.length)

/-- Prefix normalisation of `DavRequest::from_request` (src/actix.rs lines
64-67): the consumed segment, with an empty segment or a sole slash collapsed
to None. -/
def actixPrefixOf (path tail : List Char) : Option (List Char) :=
  match rawPrefixOf path tail with
  | [] => none
  | ['/'] => none
  | x => some x

/-! ### actix request adapter (src/actix.rs, DavRequest::from_request) -/

/-- Native actix request data consumed by `DavRequest::from_request`: version,
method, uri, headers in iteration order, and the router match info (full
matched path and unprocessed tail). -/
structure ActixNativeRequest where
  version : ActixVersion
  method : String
  uri : String
  headers : List (String × String)
  matchPath : List Char
  unprocessedTail : List Char
  deriving DecidableEq, Repr

/-- The canonical request assembled by `DavRequest::from_request`: an
http::Request with copied method, uri, version and headers, plus the computed
optional path prefix stored alongside it. -/
structure DavRequestM where
  method : String
  uri : String
  version : HttpVersion
  headers : List (String × String)
  prefixOpt : Option (List Char)
  deriving DecidableEq, Repr

/-- Model of `DavRequest::from_request` (src/actix.rs lines 46-75): the
version is translated first and an unrecognised version returns
io::ErrorKind::Unsupported before anything else is built; otherwise method,
uri and headers are copied in order and the prefix is computed from the
router match info. -/
def fromRequest (req : ActixNativeRequest) : Except IoErrorKind DavRequestM :=
  match actixVersionToHttp req.version with
  | none => .error .unsupported
  | some v =>
    .ok ⟨req.method, req.uri, v, req.headers,
      actixPrefixOf req.matchPath req.unprocessedTail⟩

/-! ### actix response adapter (src/actix.rs, DavResponse::respond_to) -/

/-- View of iterating `http::HeaderMap::into_iter()` over a header sequence:
the first value of each distinct name carries Some name, every later value of
an already-seen name carries None. The accumulator lists the names already
yielded. -/
def intoIterHeadersAux : List String → List (String × String) →
    List (Option String × String)
  | _, [] => []
  | seen, (n, v) :: rest =>
    if seen.contains n then (none, v) :: intoIterHeadersAux seen rest
    else (some n, v) :: intoIterHeadersAux (n :: seen) rest

/-- The `(Option name, value)` sequence `parts.headers.into_iter()` yields for
a canonical header list. -/
def intoIterHeaders (hs : List (String × String)) : List (Option String × String) :=
  intoIterHeadersAux [] hs

/-- Header copy loop of `DavResponse::respond_to` (src/actix.rs lines
130-132): each entry is appended as `(name.unwrap().as_str(), value)`; the
unwrap panics (error side) when into_iter yields a None name, which happens
exactly at the second and later values of a repeated header name. -/
def copyHeadersActix : List (Option String × String) →
    Except String (List (String × String))
  | [] => .ok []
  | (some n, v) :: rest => (copyHeadersActix rest).map (fun hs => (n, v) :: hs)
  | (none, _) :: _ => .error "called Option::unwrap() on a None value"

/-- The body actix is handed: either a buffered body (builder.body, with the
empty string for the no-content cases) or a streaming body wrapping the
canonical body (builder.streaming). -/
inductive ActixBody where
  | buffered (data : ByteSeq)
  | streaming (inner : BodyType)
  deriving DecidableEq, Repr

/-- Body encoding selection of `DavResponse::respond_to` (src/actix.rs lines
138-143): Bytes(None), Bytes(Some b) and Empty go through the buffered
builder; only AsyncStream goes through builder.streaming, which re-wraps the
same body value. The selection depends on the body variant alone. -/
def actixBodyOf : BodyType → ActixBody
  | .bytes none => .buffered []
  | .bytes (some b) => .buffered b
  | .empty => .buffered []
  | .asyncStream h => .streaming (.asyncStream h)

/-- Canonical response as consumed by the response adapters: status, version,
headers in iteration order (values of a repeated name adjacent, as
http::HeaderMap iterates them), and a canonical body. -/
structure CanonResponse where
  status : Nat
  version : HttpVersion
  headers : List (String × String)
  body : BodyType
  deriving DecidableEq, Repr

/-- The native actix response assembled by `respond_to`. -/
structure ActixNativeResponse where
  status : Nat
  headers : List (String × String)
  body : ActixBody
  deriving DecidableEq, Repr

/-- Model of `DavResponse::respond_to` (src/actix.rs lines 124-145): the
status is rebuilt from its numeric value (StatusCode::from_u16 of as_u16 is
the identity on the valid codes a canonical status always holds), the headers
are appended in iteration order through name.unwrap(), and the body encoding
is selected by variant. A panic in the header loop is the error side. -/
def respondTo (resp : CanonResponse) : Except String ActixNativeResponse :=
  match copyHeadersActix (intoIterHeaders resp.headers) with
  | .error e => .error e
  | .ok hs => .ok ⟨resp.status, hs, actixBodyOf resp.body⟩

/-! ### warp adapter (src/warp.rs, dav_handler) -/

/-- The invocation `dav_handler` makes on the protocol handler: either
`handle_stream(request)` (the handler runs with its pre-configured prefix) or
`handle_stream_with(DavHandler::builder().strip_prefix(p), request)` with the
per-request computed prefix p passed explicitly as a config override. -/
inductive WarpCall where
  | handleStream
  | handleStreamWith (overridden : List Char)
  deriving DecidableEq, Repr

/-- Model of the dispatch in `dav_handler` (src/warp.rs lines 42-52): when
`handler.config.prefix.is_some()` the request is run through handle_stream
with no per-request override; otherwise the prefix is the full path with the
tail removed, passed through a fresh strip-prefix config to
handle_stream_with. -/
def warpCallOf (configuredPath : Option (List Char)) (path tail : List Char) :
    WarpCall :=
  match configuredPath with
  | some _ => .handleStream
  | none => .handleStreamWith (rawPrefixOf path tail)

/-- Body of the native warp response: hyper::Body::wrap_stream of the
canonical body, or hyper::Body::empty. -/
inductive WarpBody where
  | wrapStream (inner : BodyType)
  | emptyBody
  deriving DecidableEq, Repr

/-- The native warp response assembled by `dav_handler`. -/
structure WarpNativeResponse where
  status : Nat
  version : Option WarpVersion
  headers : List (String × String)
  body : WarpBody
  deriving DecidableEq, Repr

/-- Model of the response half of `dav_handler` (src/warp.rs lines 55-75):
when the canonical version maps to a warp version, a response is built from
the builder with only the status, that version, and the wrapped canonical body
set — `parts.headers` is never copied into the builder, so the native header
map stays empty; when the version does not map, the builder produces status
500 with hyper::Body::empty and nothing else. -/
def warpRespondTo (resp : CanonResponse) : WarpNativeResponse :=
  match httpVersionToWarp resp.version with
  | some v => ⟨resp.status, some v, [], .wrapStream resp.body⟩
  | none => ⟨500, none, [], .emptyBody⟩

/-! ### Litmus sample server shim (examples/sample-litmus-server.rs, Server::handle) -/

/-- Parsed Basic Authorization credentials as
`headers::typed_get::<Authorization<Basic>>` yields them. -/
structure BasicCreds where
  username : String
  password : String
  deriving DecidableEq, Repr

/-- A materialised hyper response as the shim constructs it: status, headers
and a Bytes body holding the given text. -/
structure SimpleResponse where
  status : Nat
  headers : List (String × String)
  body : String
  deriving DecidableEq, Repr

/-- The 401 reply built inline in `Server::handle`
(examples/sample-litmus-server.rs lines 64-68). -/
def unauthorizedResponse : SimpleResponse :=
  ⟨401, [("WWW-Authenticate", "Basic realm=\x22foo\x22")], "please auth"⟩

/-- What `Server::handle` does with one request: return the early 401
response itself, invoke the protocol handler through handle_with with a
principal override, or invoke plain handle. -/
inductive HandleOutcome where
  | earlyResponse (resp : SimpleResponse)
  | handleWith (principal : String)
  | plainHandle
  deriving DecidableEq, Repr

/-- Model of `Server::handle` (examples/sample-litmus-server.rs lines 54-82):
with auth enabled, a request carrying Basic credentials yields
handle_with(DavConfig::new().principal(username)); one without returns the
401 response before any handler call; with auth disabled the request goes to
plain handle. -/
def serverHandle (auth : Bool) (creds : Option BasicCreds) : HandleOutcome :=
  if auth then
    match creds with
    | some basic => .handleWith basic.username
    | none => .earlyResponse unauthorizedResponse
  else
    .plainHandle

/-! ### UtcOffset and the localtime formatter (src/time.rs) -/

/-- Model of `time::UtcOffset` from the external time crate (time 0.3): the
crate stores an hours/minutes/seconds triple. Its constructors guarantee the
stored components lie within minus 25:59:59 to plus 25:59:59. -/
structure TimeUtcOffset where
  hours : Int
  minutes : Int
  seconds : Int
  deriving DecidableEq, Repr

/-- In-range check of the time crate's from_hms: hours within plus or minus
25, minutes and seconds within plus or minus 59. -/
def hmsInRange (h m s : Int) : Prop :=
  -25 ≤ h ∧ h ≤ 25 ∧ -59 ≤ m ∧ m ≤ 59 ∧ -59 ≤ s ∧ s ≤ 59

instance (h m s : Int) : Decidable (hmsInRange h m s) := by
  unfold hmsInRange; infer_instance

/-- Model of `time::UtcOffset::from_hms` (external time crate): each
component is range-checked, then the signs of the smaller components are
flipped to match the larger ones, and the triple is stored. It fails exactly
on an out-of-range component. -/
def from_hms (h m s : Int) : Option TimeUtcOffset :=
  if h < -25 ∨ 25 < h then none
  else if m < -59 ∨ 59 < m then none
  else if s < -59 ∨ 59 < s then none
  else
    let m2 := if (0 < h ∧ m < 0) ∨ (h < 0 ∧ 0 < m) then -m else m
    let s2 :=
      if (0 < h ∧ s < 0) ∨ (h < 0 ∧ 0 < s) ∨ (0 < m2 ∧ s < 0) ∨ (m2 < 0 ∧ 0 < s)
      then -s else s
    some ⟨h, m2, s2⟩

/-- The documented invariant of a `time::UtcOffset` value: its stored
components are within the from_hms ranges (every constructor of the time
crate maintains this). -/
def timeOffsetInvariant (t : TimeUtcOffset) : Prop :=
  hmsInRange t.hours t.minutes t.seconds

/-- The crate's own `UtcOffset` (src/time.rs lines 24-29): a plain
hours/minutes/seconds triple. -/
structure UtcOffset where
  hours : Int
  minutes : Int
  seconds : Int
  deriving DecidableEq, Repr

/-- The `From<time::UtcOffset>` impl (src/time.rs lines 40-45): store the
as_hms components of the time-crate offset. -/
def ofTimeUtcOffset (t : TimeUtcOffset) : UtcOffset :=
  ⟨t.hours, t.minutes, t.seconds⟩

/-- Model of `UtcOffset::new` (src/time.rs lines 33-37): delegate validation
to time::UtcOffset::from_hms, convert a success through the From impl, and
turn a failure into an io::Error of kind InvalidInput. -/
def UtcOffset.new (h m s : Int) : Except IoErrorKind UtcOffset :=
  match from_hms h m s with
  | some t => .ok (ofTimeUtcOffset t)
  | none => .error .invalidInput

/-- The offset branch of `systemtime_to_localtime` (src/time.rs line 70):
time::UtcOffset::from_hms(off.hours, off.minutes, off.seconds), whose result
the source unwraps — the function panics on that line exactly when this
returns none. -/
def localtimeOffset (off : UtcOffset) : Option TimeUtcOffset :=
  from_hms off.hours off.minutes off.seconds

/-- The ways a `UtcOffset` value can be obtained through the public
interface: through UtcOffset::new, or through From of a time-crate offset
(which itself satisfies the time crate's invariant). -/
inductive ConstructibleUtcOffset : UtcOffset → Prop where
  | viaNew (h m s : Int) (u : UtcOffset) :
      UtcOffset.new h m s = .ok u → ConstructibleUtcOffset u
  | viaFromTime (t : TimeUtcOffset) :
      timeOffsetInvariant t → ConstructibleUtcOffset (ofTimeUtcOffset t)

/-! ### Helper lemmas -/

theorem rawPrefixOf_append (p t : List Char) (h : t <:+ p) :
    rawPrefixOf p t ++ t = p := by
  obtain ⟨s, rfl⟩ := h
  unfold rawPrefixOf
  rw [List.length_append, Nat.add_sub_cancel, List.take_left]

theorem from_hms_isSome (h m s : Int) (hr : hmsInRange h m s) :
    (from_hms h m s).isSome = true := by
  obtain ⟨h1, h2, h3, h4, h5, h6⟩ := hr
  unfold from_hms
  split_ifs <;> first | rfl | omega

theorem from_hms_none (h m s : Int) (hr : ¬ hmsInRange h m s) :
    from_hms h m s = none := by
  unfold hmsInRange at hr
  unfold from_hms
  split_ifs <;> first | rfl | omega

theorem from_hms_range (h m s : Int) (t : TimeUtcOffset)
    (he : from_hms h m s = some t) : timeOffsetInvariant t := by
  unfold from_hms at he
  unfold timeOffsetInvariant hmsInRange
  split_ifs at he <;>
    (injection he with he2; subst he2; dsimp only; split_ifs <;> omega)

theorem localtimeOffset_ofTime (t : TimeUtcOffset) (ht : timeOffsetInvariant t) :
    (localtimeOffset (ofTimeUtcOffset t)).isSome = true :=
  from_hms_isSome t.hours t.minutes t.seconds ht

/-! ### Claim theorems -/

/-- C2 (confirmed): for each of the five supported protocol versions, the
actix request-adapter native-to-canonical mapping followed by the warp
response-adapter canonical-to-native mapping yields the original version: the
two enumeration tables are inverses on the supported set. -/
theorem version_roundtrip_supported (av : ActixVersion)
    (h : av ≠ ActixVersion.other) : versionRoundTrip av = some av := by
  cases av <;> first | rfl | exact absurd rfl h

/-- Witness for C2 at the concrete version HTTP/2. -/
theorem version_roundtrip_supported_witness :
    versionRoundTrip ActixVersion.http2 = some ActixVersion.http2 :=
  version_roundtrip_supported ActixVersion.http2 (by decide)

/-- C5 (confirmed): the actix body bridge maps Incomplete(Some(e)) to e,
Incomplete(None) to a broken-pipe io::Error, Io(e) to e, and any other
payload-error variant to an opaque Other io::Error carrying the stringified
native error; a successful end-of-stream is forwarded with no error
synthesized. -/
theorem payload_error_mapping :
    (∀ e : IoErrorM,
      pollFrame (.ready (some (.error (.incomplete (some e))))) =
        .ready (some (.error e))) ∧
    pollFrame (.ready (some (.error (.incomplete none)))) =
      .ready (some (.error (ioErrorFromKind .brokenPipe))) ∧
    (∀ e : IoErrorM,
      pollFrame (.ready (some (.error (.io e)))) = .ready (some (.error e))) ∧
    (∀ dbg : String,
      pollFrame (.ready (some (.error (.otherVariant dbg)))) =
        .ready (some (.error ⟨.otherKind, dbg⟩))) ∧
    pollFrame (Poll.ready none) = Poll.ready none :=
  ⟨fun _ => rfl, rfl, fun _ => rfl, fun _ => rfl, rfl⟩

/-- C7 (confirmed): a native actix request whose HTTP version is not one of
the five recognized by the canonical enumeration makes from_request return an
Unsupported error, and no canonical request is ever constructed for it. -/
theorem actix_unsupported_version_rejected (req : ActixNativeRequest)
    (h : req.version = ActixVersion.other) :
    fromRequest req = .error .unsupported ∧ ∀ d, fromRequest req ≠ .ok d := by
  have hv : actixVersionToHttp req.version = none := by rw [h]; rfl
  unfold fromRequest
  rw [hv]
  exact ⟨rfl, fun d hd => by cases hd⟩

/-- Witness for C7 at a concrete request with an unrecognised version. -/
theorem actix_unsupported_version_rejected_witness :
    fromRequest ⟨ActixVersion.other, "GET", "/a", [], ['/', 'a'], ['a']⟩ =
      Except.error IoErrorKind.unsupported :=
  (actix_unsupported_version_rejected
    ⟨ActixVersion.other, "GET", "/a", [], ['/', 'a'], ['a']⟩ rfl).1

/-- C8 (confirmed): the warp adapter runs a pre-configured-prefix handler
through handle_stream with no per-request override, and only with no
configured prefix does it pass the single per-request computed prefix (full
path minus tail) through a strip-prefix override; the two are never
combined. -/
theorem warp_configured_prefix_priority (cfg : Option (List Char))
    (path tail : List Char) :
    ((∃ p, cfg = some p) → warpCallOf cfg path tail = .handleStream) ∧
    (cfg = none →
      warpCallOf cfg path tail = .handleStreamWith (rawPrefixOf path tail)) := by
  constructor
  · rintro ⟨p, rfl⟩; rfl
  · rintro rfl; rfl

/-- Witness for C8 at a concrete configured prefix and at no prefix. -/
theorem warp_configured_prefix_priority_witness :
    warpCallOf (some ['/', 'd']) ['/', 'd', '/', 'f'] ['f'] =
      WarpCall.handleStream ∧
    warpCallOf none ['/', 'd', '/', 'f'] ['f'] =
      WarpCall.handleStreamWith (rawPrefixOf ['/', 'd', '/', 'f'] ['f']) :=
  ⟨(warp_configured_prefix_priority (some ['/', 'd']) ['/', 'd', '/', 'f'] ['f']).1
      ⟨['/', 'd'], rfl⟩,
   (warp_configured_prefix_priority none ['/', 'd', '/', 'f'] ['f']).2 rfl⟩

/-- C9 (confirmed): with authentication enabled, a request without Basic
credentials gets the early 401 response (with its WWW-Authenticate challenge
header and short human-readable body) and neither handle nor handle_with is
invoked; a request with credentials goes to handle_with with exactly that
credential's username as the principal override. -/
theorem litmus_auth_gate (creds : Option BasicCreds) :
    (creds = none →
      serverHandle true creds = .earlyResponse unauthorizedResponse ∧
      unauthorizedResponse.status = 401 ∧
      unauthorizedResponse.headers =
        [("WWW-Authenticate", "Basic realm=\x22foo\x22")] ∧
      unauthorizedResponse.body = "please auth" ∧
      (∀ p, serverHandle true creds ≠ .handleWith p) ∧
      serverHandle true creds ≠ .plainHandle) ∧
    (∀ b, creds = some b → serverHandle true creds = .handleWith b.username) := by
  constructor
  · rintro rfl
    refine ⟨rfl, rfl, rfl, rfl, fun p hp => ?_, fun hp => ?_⟩ <;> cases hp
  · rintro b rfl
    rfl

/-- Witness for C9: the gate at a concrete credential-less request and at a
concrete alice credential. -/
theorem litmus_auth_gate_witness :
    serverHandle true none = HandleOutcome.earlyResponse unauthorizedResponse ∧
    serverHandle true (some ⟨"alice", "secret"⟩) =
      HandleOutcome.handleWith "alice" :=
  ⟨((litmus_auth_gate none).1 rfl).1,
   (litmus_auth_gate (some ⟨"alice", "secret"⟩)).2 ⟨"alice", "secret"⟩ rfl⟩

/-- C1 (counterexample): at path P = "/" with tail T = P, the warp adapter
with no configured prefix passes the computed prefix as an explicitly empty
strip-prefix override, not as an absent prefix; the actix adapter, in
contrast, collapses the same segment to None. This refutes the claim that
both adapters report "no prefix" for an empty consumed segment. -/
theorem warp_prefix_explicit_empty_cx :
    warpCallOf none ['/'] ['/'] = WarpCall.handleStreamWith [] ∧
    actixPrefixOf ['/'] ['/'] = none ∧
    WarpCall.handleStreamWith ([] : List Char) ≠ WarpCall.handleStream :=
  ⟨rfl, rfl, by decide⟩

/-- C1 (corrected): for every path P and suffix tail T, the consumed segment
(P with T removed) satisfies segment ++ T = P; the actix adapter returns
Some s only with s ++ T = P and collapses an empty or sole-slash segment
(in particular T = P) to None; the warp adapter passes the consumed segment
verbatim as an explicit strip-prefix override, with no collapsing. -/
theorem prefix_computation_amended (p t : List Char) (h : t <:+ p) :
    (∀ s, actixPrefixOf p t = some s → s ++ t = p) ∧
    (rawPrefixOf p t = [] ∨ rawPrefixOf p t = ['/'] →
      actixPrefixOf p t = none) ∧
    warpCallOf none p t = WarpCall.handleStreamWith (rawPrefixOf p t) ∧
    rawPrefixOf p t ++ t = p := by
  refine ⟨?_, ?_, rfl, rawPrefixOf_append p t h⟩
  · intro s hs
    unfold actixPrefixOf at hs
    split at hs
    · cases hs
    · cases hs
    · injection hs with hs2
      subst hs2
      exact rawPrefixOf_append p t h
  · intro hc
    unfold actixPrefixOf
    rcases hc with hc | hc
    · rw [hc]
    · rw [hc]; rfl

/-- Witness for C1 (corrected) at the concrete paths "/d/f" with tail "f"
and "/" with tail "/". -/
theorem prefix_computation_amended_witness :
    (['/', 'd', '/'] : List Char) ++ ['f'] = ['/', 'd', '/', 'f'] ∧
    actixPrefixOf ['/'] ['/'] = none :=
  ⟨(prefix_computation_amended ['/', 'd', '/', 'f'] ['f']
      ⟨['/', 'd', '/'], rfl⟩).1 ['/', 'd', '/'] rfl,
   (prefix_computation_amended ['/'] ['/'] ⟨[], rfl⟩).2.1 (Or.inl rfl)⟩

/-- C3 (counterexample): a canonical response with status 204 and a
Stream-variant body is rendered by the actix adapter through the streaming
constructor, not as the buffered empty body the claim requires. -/
theorem actix_stream_204_streaming_cx :
    respondTo ⟨204, HttpVersion.http11, [], BodyType.asyncStream 0⟩ =
      Except.ok ⟨204, [], ActixBody.streaming (BodyType.asyncStream 0)⟩ ∧
    ActixBody.streaming (BodyType.asyncStream 0) ≠ ActixBody.buffered [] :=
  ⟨rfl, by decide⟩

/-- C3 (corrected): the actix adapter selects the body encoding by body
variant alone: a status-204 response whose body is Empty or Bytes(None) is
rendered as the buffered empty body, while an AsyncStream body is handed to
the streaming constructor regardless of status (in particular at 204). -/
theorem actix_204_body_encoding_amended (resp : CanonResponse)
    (_h204 : resp.status = 204) :
    ((resp.body = BodyType.empty ∨ resp.body = BodyType.bytes none) →
      ∀ n, respondTo resp = .ok n → n.body = ActixBody.buffered []) ∧
    (∀ i, resp.body = BodyType.asyncStream i →
      ∀ n, respondTo resp = .ok n →
        n.body = ActixBody.streaming (BodyType.asyncStream i)) := by
  constructor
  · intro hb n hn
    unfold respondTo at hn
    split at hn
    · cases hn
    · injection hn with hn2
      subst hn2
      rcases hb with hb | hb <;> rw [hb] <;> rfl
  · intro i hb n hn
    unfold respondTo at hn
    split at hn
    · cases hn
    · injection hn with hn2
      subst hn2
      rw [hb]
      rfl

/-- Witness for C3 (corrected) at a concrete 204 response with an Empty
body. -/
theorem actix_204_body_encoding_amended_witness :
    (⟨204, [], ActixBody.buffered []⟩ : ActixNativeResponse).body =
      ActixBody.buffered [] :=
  (actix_204_body_encoding_amended
      ⟨204, HttpVersion.http11, [], BodyType.empty⟩ rfl).1
    (Or.inl rfl) ⟨204, [], ActixBody.buffered []⟩ rfl

/-- C4 (code evaluation): the warp response half drops the canonical headers:
at a concrete canonical response carrying a content-type header, the native
response it builds has an empty header list, diverging from the claim that
headers are copied verbatim in order. -/
theorem warp_response_drops_headers_eval :
    (warpRespondTo ⟨207, HttpVersion.http11,
        [("content-type", "application/xml; charset=utf-8")],
        BodyType.asyncStream 0⟩).headers = [] ∧
    ([("content-type", "application/xml; charset=utf-8")] :
        List (String × String)) ≠ [] :=
  ⟨rfl, by decide⟩

/-- C6 (confirmed): a canonical response whose version has no warp
representation is replaced by a fabricated status-500 empty-body response,
regardless of its own status, headers and body; for every representable
version the adapter instead carries over the canonical status and wraps the
canonical body, so the substitution is the only fabricated response. -/
theorem warp_unrepresentable_version_500 (resp : CanonResponse) :
    (resp.version = HttpVersion.other →
      warpRespondTo resp = ⟨500, none, [], WarpBody.emptyBody⟩) ∧
    (resp.version ≠ HttpVersion.other →
      ∃ v, httpVersionToWarp resp.version = some v ∧
        warpRespondTo resp =
          ⟨resp.status, some v, [], WarpBody.wrapStream resp.body⟩) := by
  constructor
  · intro h
    unfold warpRespondTo
    rw [h]
    rfl
  · intro h
    obtain ⟨st, ver, hs, bd⟩ := resp
    cases ver <;>
      first
        | exact absurd rfl h
        | exact ⟨_, rfl, rfl⟩

/-- Witness for C6 at a concrete unrepresentable-version response and a
concrete HTTP/1.1 response. -/
theorem warp_unrepresentable_version_500_witness :
    warpRespondTo ⟨207, HttpVersion.other, [("DAV", "1")],
        BodyType.asyncStream 3⟩ = ⟨500, none, [], WarpBody.emptyBody⟩ ∧
    warpRespondTo ⟨207, HttpVersion.http11, [], BodyType.empty⟩ =
      ⟨207, some WarpVersion.http11, [], WarpBody.wrapStream BodyType.empty⟩ := by
  constructor
  · exact (warp_unrepresentable_version_500
      ⟨207, HttpVersion.other, [("DAV", "1")], BodyType.asyncStream 3⟩).1 rfl
  · obtain ⟨v, hv, he⟩ := (warp_unrepresentable_version_500
      ⟨207, HttpVersion.http11, [], BodyType.empty⟩).2 (by decide)
    cases hv
    exact he

/-- C10 (confirmed): UtcOffset::new rejects every out-of-range
hours/minutes/seconds triple with an InvalidInput error, and every UtcOffset
reachable through the public interface (new, or From of a time-crate offset)
stores a triple that time::UtcOffset::from_hms accepts, so the unwrap on the
offset branch of systemtime_to_localtime never panics. -/
theorem utcoffset_localtime_no_panic :
    (∀ h m s : Int, ¬ hmsInRange h m s →
      UtcOffset.new h m s = .error .invalidInput) ∧
    (∀ u, ConstructibleUtcOffset u → (localtimeOffset u).isSome = true) := by
  constructor
  · intro h m s hr
    unfold UtcOffset.new
    rw [from_hms_none h m s hr]
  · intro u hc
    induction hc with
    | viaNew h m s u hnew =>
      unfold UtcOffset.new at hnew
      rcases heq : from_hms h m s with _ | t <;> rw [heq] at hnew
      · cases hnew
      · injection hnew with hnew2
        subst hnew2
        exact localtimeOffset_ofTime t (from_hms_range h m s t heq)
    | viaFromTime t ht =>
      exact localtimeOffset_ofTime t ht

/-- Witness for C10: a concrete out-of-range triple is rejected and a
concrete constructible offset reaches the localtime branch without a panic. -/
theorem utcoffset_localtime_no_panic_witness :
    UtcOffset.new 30 0 0 = Except.error IoErrorKind.invalidInput ∧
    (localtimeOffset ⟨1, 30, 0⟩).isSome = true :=
  ⟨utcoffset_localtime_no_panic.1 30 0 0 (by decide),
   utcoffset_localtime_no_panic.2 ⟨1, 30, 0⟩
     (ConstructibleUtcOffset.viaNew 1 30 0 ⟨1, 30, 0⟩ rfl)⟩

end WebdavHandler
